import Mathlib

/-!
Shallow embedding of the retrieval and citation-normalization layer of the
ZotMCP server (`src/main.py`), together with theorems settling the spec's
claims about it.

The vector index (ChromaDB, reached through the buttermilk search tool) is an
external collaborator; each operation takes the index primitives it calls as
explicit function arguments returning `Except String _`, so that an index
error is an `Except.error` and the operation's own Python-level `raise` /
`return` behaviour is visible in the type.  Scores and distances are modelled
as rationals.
-/

namespace ZotMCP

/-- Python truthiness of an optional string: `None` and `""` are falsy. -/
def truthy (o : Option String) : Bool :=
  match o with
  | none => false
  | some s => s ≠ ""

/-- Python's `round(x, 3)`: round to 3 decimal places.  (Python rounds
half-to-even on floats; the tie behaviour is immaterial to every claim here,
all of which use `round3` on both sides.) -/
def round3 (q : ℚ) : ℚ := (round (1000 * q) : ℤ) / 1000

/-- Needle-at-the-front test on character lists (helper for substring). -/
def leadsWith : List Char → List Char → Bool
  | _, [] => true
  | [], _ :: _ => false
  | h :: t, n :: ns => h == n && leadsWith t ns

/-- Python's `needle in hay` on strings, over character lists. -/
def containsSub : List Char → List Char → Bool
  | [], needle => needle.isEmpty
  | h :: t, needle => leadsWith (h :: t) needle || containsSub t needle

/-- Per-chunk ChromaDB metadata mapping; `none` models an absent key.
`document_id` is the Zotero key (see `extract_citation_metadata`). -/
structure Metadata where
  citation : Option String := none
  doi_or_url : Option String := none
  uri : Option String := none
  document_id : Option String := none
  itemType : Option String := none
  item_key : Option String := none
  creators : Option String := none
deriving DecidableEq, Repr

/-- `extract_citation_metadata` (main.py): citation with default, then
DOI/URL, URI, Zotero key (`document_id`). -/
def extract_citation_metadata (metadata : Metadata) :
    String × Option String × Option String × Option String :=
  (metadata.citation.getD "Citation not available",
   metadata.doi_or_url, metadata.uri, metadata.document_id)

/-- One hit returned by the buttermilk search tool: chunk content, optional
relevance score, metadata. -/
structure SearchResult where
  content : String
  score : Option ℚ
  metadata : Metadata
deriving DecidableEq, Repr

/-- One formatted record in the `search` payload. -/
structure FormattedResult where
  citation : String
  excerpt : String
  similarity : Option ℚ
  doi_or_url : Option String
  uri : Option String
  zotero_key : Option String
  zotero_link : Option String
deriving DecidableEq, Repr

/-- The dict returned by `search`: the success dict has a `query` key and no
`error` key, the degraded dict has an `error` key and no `query` key. -/
structure SearchPayload where
  query : Option String
  total_results : Nat
  results : List FormattedResult
  error : Option String
deriving DecidableEq, Repr

/-- The type filter in `search`'s loop: skip when `filter_type` is truthy and
the chunk's `itemType` differs from it. -/
def keepResult (filter_type : Option String) (m : Metadata) : Bool :=
  match filter_type with
  | none => true
  | some ft => if ft = "" then true else m.itemType == some ft

/-- Body of `search`'s formatting loop for one hit: excerpt is the raw chunk
content; similarity is `round(score, 3)` guarded by Python truthiness of the
score (so a score of 0 yields `None`); the Zotero app link is built from the
`document_id` when that is truthy. -/
def formatResult (r : SearchResult) : FormattedResult :=
  let e := extract_citation_metadata r.metadata
  let zotero_key := e.2.2.2
  { citation := e.1
    excerpt := r.content
    similarity :=
      match r.score with
      | none => none
      | some s => if s = 0 then none else some (round3 s)
    doi_or_url := e.2.1
    uri := e.2.2.1
    zotero_key := zotero_key
    zotero_link :=
      if truthy zotero_key then
        some ("zotero://select/library/items/" ++ zotero_key.getD "")
      else none }

/-- `n_results = min(n_results, 50)` at the top of `search`. -/
def searchEffective (n : Int) : Int := min n 50

/-- `search` (main.py): clamp the count, call the tool, format each hit that
passes the type filter; any exception is caught and turned into the annotated
empty payload. -/
def search (query : String) (n_results : Int) (filter_type : Option String)
    (toolSearch : String → Int → Except String (List SearchResult)) :
    SearchPayload :=
  match toolSearch query (searchEffective n_results) with
  | .ok results =>
      let formatted :=
        (results.filter (fun r => keepResult filter_type r.metadata)).map
          formatResult
      { query := some query
        total_results := formatted.length
        results := formatted
        error := none }
  | .error e =>
      { query := none, total_results := 0, results := [], error := some e }

/-- One entry of `get_similar_items`' `similar_items` list.  Its similarity
is always a number (`round(1 - dist, 3)`), never `None`. -/
structure SimilarItem where
  item_key : String
  citation : String
  similarity : ℚ
  doi_or_url : Option String
  uri : Option String
  zotero_key : Option String
  zotero_link : Option String
deriving DecidableEq, Repr

/-- The dict returned by `get_similar_items` when it does not raise: either
the not-found `{error: ...}` dict or the `{source_item, similar_items}` dict. -/
inductive SimilarReturn where
  | errorPayload (msg : String)
  | payload (source_item : String) (similar_items : List SimilarItem)
deriving DecidableEq, Repr

/-- One row of a ChromaDB `query` reply: ranked metadatas and distances. -/
structure QueryReply where
  metadatas : List Metadata
  distances : List ℚ
deriving DecidableEq, Repr

/-- The record appended inside `get_similar_items`' loop for a hit with
(truthy) key `meta.item_key` at distance `dist`. -/
def mkSimilarItem (meta : Metadata) (dist : ℚ) : SimilarItem :=
  let e := extract_citation_metadata meta
  let zotero_key := e.2.2.2
  { item_key := meta.item_key.getD ""
    citation := e.1
    similarity := round3 (1 - dist)
    doi_or_url := e.2.1
    uri := e.2.2.1
    zotero_key := zotero_key
    zotero_link :=
      if truthy zotero_key then
        some ("zotero://select/library/items/" ++ zotero_key.getD "")
      else none }

/-- The `for meta, dist in zip(...)` loop of `get_similar_items`: keep a hit
when its key is truthy, differs from the source key and was not seen before;
after appending, stop as soon as the list length reaches `n`.  `seen` is the
`seen_keys` set and `cnt` the length of the list built so far. -/
def buildSimilar (src : String) (n : Int) :
    List (Metadata × ℚ) → List String → Nat → List SimilarItem
  | [], _, _ => []
  | (meta, dist) :: rest, seen, cnt =>
    if truthy meta.item_key ∧ meta.item_key.getD "" ≠ src ∧
        meta.item_key.getD "" ∉ seen then
      let item := mkSimilarItem meta dist
      if n ≤ (cnt + 1 : Int) then [item]
      else item :: buildSimilar src n rest (meta.item_key.getD "" :: seen) (cnt + 1)
    else buildSimilar src n rest seen cnt

/-- `get_similar_items` (main.py).  `collGet key` models
`coll.get(where={"item_key": {"$eq": key}}, include=["documents"], limit=1)`
(the stored documents for that key); `collQuery text n` models
`coll.query(query_texts=[text], n_results=n, include=["metadatas", "distances"])`.
A missing item gives the `{error: ...}` dict; index errors propagate. -/
def get_similar_items (item_key : String) (n_results : Int)
    (collGet : String → Except String (List String))
    (collQuery : String → Int → Except String QueryReply) :
    Except String SimilarReturn :=
  match collGet item_key with
  | .error e => .error e
  | .ok docs =>
    match docs with
    | [] => .ok (.errorPayload ("Item " ++ item_key ++ " not found"))
    | query_text :: _ =>
      match collQuery query_text (n_results + 5) with
      | .error e => .error e
      | .ok reply =>
          .ok (.payload item_key
            (buildSimilar item_key n_results
              (reply.metadatas.zip reply.distances) [] 0))

/-- The only dict `get_item` ever returns (when the item is found it raises
instead). -/
inductive GetItemReturn where
  | errorPayload (msg : String)
deriving DecidableEq, Repr

/-- Message of the `NotImplementedError` raised by `get_item` on a hit. -/
def notImplementedMsg : String :=
  "Integration with Zotero cloud sync is not yet built."

/-- `get_item` (main.py): not-found gives the `{error: ...}` dict; a found
item raises `NotImplementedError` (modelled as `Except.error`). -/
def get_item (item_key : String)
    (collGet : String → Except String (List String)) :
    Except String GetItemReturn :=
  match collGet item_key with
  | .error e => .error e
  | .ok docs =>
    match docs with
    | [] => .ok (.errorPayload ("Item " ++ item_key ++ " not found"))
    | _ :: _ => .error notImplementedMsg

/-- The dict returned by `get_collection_info`. -/
structure CollectionInfo where
  collection_name : String
  total_chunks : Nat
  estimated_unique_items : Nat
  sample_item_types : List (String × Nat)
  embedding_model : String
  dimensions : Nat
deriving DecidableEq, Repr

/-- `len(unique_items)` in `get_collection_info`: the number of distinct
truthy `item_key` values in the sampled metadatas. -/
def uniqueItemCount (metas : List Metadata) : Nat :=
  ((metas.filterMap fun m =>
      if truthy m.item_key then some (m.item_key.getD "") else none)).dedup.length

/-- `item_types[k] = item_types.get(k, 0) + 1` on an insertion-ordered dict. -/
def bumpCount (l : List (String × Nat)) (k : String) : List (String × Nat) :=
  if l.any (fun p => p.1 = k) then
    l.map (fun p => if p.1 = k then (p.1, p.2 + 1) else p)
  else l ++ [(k, 1)]

/-- The `item_types` histogram over the sample, keyed by
`meta.get("itemType", "unknown")`. -/
def itemTypesHistogram (metas : List Metadata) : List (String × Nat) :=
  metas.foldl (fun acc m => bumpCount acc (m.itemType.getD "unknown")) []

/-- `get_collection_info` (main.py).  `collCount` models `coll.count()` and
`collSample` models `coll.get(limit=100, include=["metadatas"])`; index errors
propagate.  `estimated_unique_items` is
`len(unique_items) * (total_chunks // 100)` (Python floor division). -/
def get_collection_info (collection_name embedding_model : String)
    (dimensionality : Nat) (collCount : Except String Nat)
    (collSample : Except String (List Metadata)) :
    Except String CollectionInfo :=
  match collCount with
  | .error e => .error e
  | .ok total_chunks =>
    match collSample with
    | .error e => .error e
    | .ok metas =>
        .ok { collection_name := collection_name
              total_chunks := total_chunks
              estimated_unique_items := uniqueItemCount metas * (total_chunks / 100)
              sample_item_types := itemTypesHistogram metas
              embedding_model := embedding_model
              dimensions := dimensionality }

/-- Modelled from the spec (refinement side of C8, not from the source): the
spec's words "count distinct document keys in a fixed-size sample ..., then
scale linearly by `total_chunks / sample_size`" read with exact (rational)
division and sample size 100. -/
def specEstimatedUniqueItems (total_chunks : Nat) (metas : List Metadata) : ℚ :=
  (uniqueItemCount metas : ℚ) * ((total_chunks : ℚ) / 100)

/-- One entry of `search_by_author`'s `items` list (no similarity field). -/
structure AuthorItem where
  item_key : String
  citation : String
  doi_or_url : Option String
  uri : Option String
  zotero_key : Option String
  zotero_link : Option String
deriving DecidableEq, Repr

/-- The record stored in `matching_items[item_key]` for a matching chunk. -/
def mkAuthorItem (meta : Metadata) : AuthorItem :=
  let e := extract_citation_metadata meta
  let zotero_key := e.2.2.2
  { item_key := meta.item_key.getD ""
    citation := e.1
    doi_or_url := e.2.1
    uri := e.2.2.1
    zotero_key := zotero_key
    zotero_link :=
      if truthy zotero_key then
        some ("zotero://select/library/items/" ++ zotero_key.getD "")
      else none }

/-- ASCII lowercasing of one character (model of `str.lower` per char). -/
def lowerChar (c : Char) : Char :=
  if 'A' ≤ c ∧ c ≤ 'Z' then Char.ofNat (c.toNat + 32) else c

/-- `s.lower()` as a character list (ASCII model of Python's `str.lower`;
the lowering semantics itself is not load-bearing for any claim). -/
def lowerStr (s : String) : List Char := s.data.map lowerChar

/-- `author_name.lower() in meta.get("creators", "").lower()`. -/
def authorMatch (author : String) (meta : Metadata) : Bool :=
  containsSub (lowerStr (meta.creators.getD "")) (lowerStr author)

/-- The scan loop of `search_by_author` over `zip(documents, metadatas)`.
`acc` is the insertion-ordered `matching_items` dict (keys are the stored
`item_key`s).  On an author match: insert when the key is truthy and new,
then stop once the dict size reaches `n`. -/
def authorScan (author : String) (n : Int) :
    List (String × Metadata) → List AuthorItem → List AuthorItem
  | [], acc => acc
  | (_, meta) :: rest, acc =>
    if authorMatch author meta then
      let acc' :=
        if truthy meta.item_key ∧
            ∀ e ∈ acc, e.item_key ≠ meta.item_key.getD "" then
          acc ++ [mkAuthorItem meta]
        else acc
      if n ≤ (acc'.length : Int) then acc'
      else authorScan author n rest acc'
    else authorScan author n rest acc

/-- The dict returned by `search_by_author`. -/
structure AuthorPayload where
  author : String
  total_results : Nat
  items : List AuthorItem
deriving DecidableEq, Repr

/-- `search_by_author` (main.py).  `collGet` models
`coll.get(limit=1000, include=["metadatas", "documents"])`, giving the
documents and metadatas lists that the loop zips; index errors propagate. -/
def search_by_author (author_name : String) (n_results : Int)
    (collGet : Except String (List String × List Metadata)) :
    Except String AuthorPayload :=
  match collGet with
  | .error e => .error e
  | .ok (docs, metas) =>
      let matching := authorScan author_name n_results (docs.zip metas) []
      .ok { author := author_name
            total_results := matching.length
            items := matching }

/-- The per-record link/key relationship claimed by the spec (amended form):
the Zotero app link is present iff the Zotero key is present and non-empty,
and is then the fixed URI scheme followed by the key. -/
def linkSpec (key link : Option String) : Prop :=
  (link ≠ none ↔ ∃ k, key = some k ∧ k ≠ "") ∧
  ∀ k, key = some k → k ≠ "" → link = some ("zotero://select/library/items/" ++ k)

/-! Concrete index states and hits used by witnesses and counterexamples. -/

/-- A chunk metadata whose document and item key is `"D1"`. -/
def smithMeta : Metadata :=
  { citation := some "Smith, A. (2020). Title X", document_id := some "D1",
    item_key := some "D1", creators := some "Smith, A." }

/-- A search hit for `smithMeta` with the given chunk content. -/
def smithHit (content : String) : SearchResult :=
  { content := content, score := some (1 / 2), metadata := smithMeta }

/-- A 600-character chunk content (exceeds the 500-character bound). -/
def longContent : String := String.mk (List.replicate 600 'a')

/-- The 600-character hit. -/
def longHit : SearchResult :=
  { content := longContent, score := some (1 / 2), metadata := smithMeta }

/-- A hit whose raw score is available and equal to zero. -/
def zeroScoreHit : SearchResult :=
  { content := "x", score := some 0, metadata := smithMeta }

/-- A chunk metadata whose `document_id` is the empty string. -/
def emptyKeyMeta : Metadata := { document_id := some "", citation := some "c" }

/-- The hit carrying `emptyKeyMeta`. -/
def emptyKeyHit : SearchResult :=
  { content := "t", score := some (1 / 2), metadata := emptyKeyMeta }

/-- An index stub that records the requested count: it only succeeds when
asked for exactly 0 results. -/
def spyTool : String → Int → Except String (List SearchResult) :=
  fun _ c => if c = 0 then .ok [] else .error "nonzero count"

/-- A metadata with key `"OTHER"`. -/
def otherMeta : Metadata :=
  { citation := some "Other, B. (2021). Paper", document_id := some "OTHER",
    item_key := some "OTHER", creators := some "Smith, A." }

/-- A second chunk of the same `"OTHER"` document (different citation text,
same keys) — a duplicate-key hit. -/
def otherDup : Metadata :=
  { citation := some "Other duplicate chunk", document_id := some "OTHER",
    item_key := some "OTHER", creators := some "Smith, A." }

/-- A metadata with key `"B"`. -/
def metaB : Metadata :=
  { citation := some "Brown, C. (2019). Note", document_id := some "B",
    item_key := some "B", creators := some "Smith, A." }

/-- `coll.get` stub: item `"K"` has one stored chunk, everything else none. -/
def oneChunkGet : String → Except String (List String) :=
  fun k => if k = "K" then .ok ["text"] else .ok []

/-- `coll.query` stub returning a single hit (`otherMeta`) at distance 0. -/
def oneHitQuery : String → Int → Except String QueryReply :=
  fun _ _ => .ok { metadatas := [otherMeta], distances := [0] }

/-- Three chunk-level hits with a duplicated document key. -/
def dupPairs : List (Metadata × ℚ) := [(otherMeta, 0), (otherDup, 0), (metaB, 0)]

/-- The same three chunks as a `(document, metadata)` corpus scan. -/
def authorTriple : List (String × Metadata) :=
  [("d1", otherMeta), ("d2", otherDup), ("d3", metaB)]

/-- A two-chunk sample with two distinct item keys. -/
def twoKeySample : List Metadata :=
  [{ item_key := some "A" }, { item_key := some "B" }]

/-! Helper lemmas. -/

theorem truthy_some {o : Option String} (h : truthy o = true) :
    o = some (o.getD "") ∧ o.getD "" ≠ "" := by
  cases o with
  | none => exact absurd h (by simp [truthy])
  | some s => exact ⟨rfl, by simpa [truthy] using h⟩

theorem truthy_some_of_ne {s : String} (h : s ≠ "") : truthy (some s) = true := by
  simp [truthy, h]

theorem mkSimilarItem_key (m : Metadata) (d : ℚ) :
    (mkSimilarItem m d).item_key = m.item_key.getD "" := rfl

theorem mkAuthorItem_key (m : Metadata) :
    (mkAuthorItem m).item_key = m.item_key.getD "" := rfl

theorem linkSpec_mk (z : Option String) :
    linkSpec z (if truthy z then
      some ("zotero://select/library/items/" ++ z.getD "") else none) := by
  constructor
  · constructor
    · intro hne
      by_cases h : truthy z = true
      · obtain ⟨hz, hne'⟩ := truthy_some h
        exact ⟨z.getD "", hz, hne'⟩
      · simp [h] at hne
    · rintro ⟨k, hk, hkne⟩
      subst hk
      simp [truthy_some_of_ne hkne]
  · intro k hk hkne
    subst hk
    simp [truthy_some_of_ne hkne]

theorem buildSimilar_mem_spec (src : String) (n : Int) :
    ∀ (l : List (Metadata × ℚ)) (seen : List String) (cnt : Nat)
      (e : SimilarItem), e ∈ buildSimilar src n l seen cnt →
      e.item_key ∉ seen ∧ e.item_key ≠ "" ∧ e.item_key ≠ src ∧
      ∃ l₁ p l₂, l = l₁ ++ p :: l₂ ∧ e = mkSimilarItem p.1 p.2 ∧
        p.1.item_key = some e.item_key ∧
        ∀ q ∈ l₁, q.1.item_key ≠ some e.item_key := by
  intro l
  induction l with
  | nil => intro seen cnt e he; simp [buildSimilar] at he
  | cons hd rest ih =>
    obtain ⟨meta, dist⟩ := hd
    intro seen cnt e he
    by_cases hg : truthy meta.item_key = true ∧ meta.item_key.getD "" ≠ src ∧
        meta.item_key.getD "" ∉ seen
    · have htr := hg.1
      have hsrc := hg.2.1
      have hseen := hg.2.2
      obtain ⟨hk, hk0⟩ := truthy_some htr
      by_cases hstop : n ≤ (cnt + 1 : Int)
      · simp only [buildSimilar, if_pos hg, if_pos hstop,
          List.mem_singleton] at he
        subst he
        simp only [mkSimilarItem_key]
        exact ⟨hseen, hk0, hsrc, [], (meta, dist), rest, rfl, rfl, hk, by simp⟩
      · simp only [buildSimilar, if_pos hg, if_neg hstop,
          List.mem_cons] at he
        rcases he with he' | he'
        · subst he'
          simp only [mkSimilarItem_key]
          exact ⟨hseen, hk0, hsrc, [], (meta, dist), rest, rfl, rfl, hk, by simp⟩
        · obtain ⟨hnseen, hne, hnsrc, l₁, p, l₂, hsplit, hemk, hpkey, hfirst⟩ :=
            ih (meta.item_key.getD "" :: seen) (cnt + 1) e he'
          have hkne : e.item_key ≠ meta.item_key.getD "" := by
            intro hcontra
            exact hnseen (hcontra ▸ List.mem_cons_self _ _)
          refine ⟨fun hs => hnseen (List.mem_cons_of_mem _ hs), hne, hnsrc,
            (meta, dist) :: l₁, p, l₂, by simp [hsplit], hemk, hpkey, ?_⟩
          intro q hq
          rcases List.mem_cons.mp hq with hqe | hq'
          · subst hqe
            rw [hk]
            simp only [ne_eq, Option.some.injEq]
            exact fun hcontra => hkne hcontra.symm
          · exact hfirst q hq'
    · simp only [buildSimilar, if_neg hg] at he
      obtain ⟨hnseen, hne, hnsrc, l₁, p, l₂, hsplit, hemk, hpkey, hfirst⟩ :=
        ih seen cnt e he
      refine ⟨hnseen, hne, hnsrc, (meta, dist) :: l₁, p, l₂, by simp [hsplit],
        hemk, hpkey, ?_⟩
      intro q hq
      rcases List.mem_cons.mp hq with hqe | hq'
      · subst hqe
        intro hcontra
        apply hg
        refine ⟨?_, ?_, ?_⟩
        · rw [hcontra]; exact truthy_some_of_ne hne
        · rw [hcontra]; simpa using hnsrc
        · rw [hcontra]; simpa using hnseen
      · exact hfirst q hq'

theorem buildSimilar_nodup (src : String) (n : Int) :
    ∀ (l : List (Metadata × ℚ)) (seen : List String) (cnt : Nat),
      ((buildSimilar src n l seen cnt).map SimilarItem.item_key).Nodup := by
  intro l
  induction l with
  | nil => intro seen cnt; simp [buildSimilar]
  | cons hd rest ih =>
    obtain ⟨meta, dist⟩ := hd
    intro seen cnt
    by_cases hg : truthy meta.item_key = true ∧ meta.item_key.getD "" ≠ src ∧
        meta.item_key.getD "" ∉ seen
    · by_cases hstop : n ≤ (cnt + 1 : Int)
      · simp only [buildSimilar, if_pos hg, if_pos hstop]
        simp
      · simp only [buildSimilar, if_pos hg, if_neg hstop, List.map_cons,
          List.nodup_cons]
        refine ⟨?_, ih _ _⟩
        intro hmem
        obtain ⟨e, hemem, hekey⟩ := List.mem_map.mp hmem
        have h1 := (buildSimilar_mem_spec src n rest _ _ e hemem).1
        apply h1
        rw [hekey, mkSimilarItem_key]
        exact List.mem_cons_self _ _
    · simp only [buildSimilar, if_neg hg]
      exact ih seen cnt

theorem buildSimilar_keys_sublist (src : String) (n : Int) :
    ∀ (l : List (Metadata × ℚ)) (seen : List String) (cnt : Nat),
      List.Sublist ((buildSimilar src n l seen cnt).map SimilarItem.item_key)
        (l.map fun p => p.1.item_key.getD "") := by
  intro l
  induction l with
  | nil => intro seen cnt; simp [buildSimilar]
  | cons hd rest ih =>
    obtain ⟨meta, dist⟩ := hd
    intro seen cnt
    by_cases hg : truthy meta.item_key = true ∧ meta.item_key.getD "" ≠ src ∧
        meta.item_key.getD "" ∉ seen
    · by_cases hstop : n ≤ (cnt + 1 : Int)
      · simp only [buildSimilar, if_pos hg, if_pos hstop, List.map_cons,
          List.map_nil, mkSimilarItem_key]
        exact List.Sublist.cons₂ _ (List.nil_sublist _)
      · simp only [buildSimilar, if_pos hg, if_neg hstop, List.map_cons,
          mkSimilarItem_key]
        exact List.Sublist.cons₂ _ (ih _ _)
    · simp only [buildSimilar, if_neg hg, List.map_cons]
      exact List.Sublist.cons _ (ih seen cnt)

theorem buildSimilar_length_le (src : String) (n : Int) :
    ∀ (l : List (Metadata × ℚ)) (seen : List String) (cnt : Nat),
      (cnt : Int) < n →
      ((buildSimilar src n l seen cnt).length : Int) + cnt ≤ n := by
  intro l
  induction l with
  | nil => intro seen cnt h; simp [buildSimilar]; omega
  | cons hd rest ih =>
    obtain ⟨meta, dist⟩ := hd
    intro seen cnt h
    by_cases hg : truthy meta.item_key = true ∧ meta.item_key.getD "" ≠ src ∧
        meta.item_key.getD "" ∉ seen
    · by_cases hstop : n ≤ (cnt + 1 : Int)
      · simp only [buildSimilar, if_pos hg, if_pos hstop, List.length_singleton]
        omega
      · simp only [buildSimilar, if_pos hg, if_neg hstop, List.length_cons]
        have := ih (meta.item_key.getD "" :: seen) (cnt + 1) (by omega)
        push_cast at this ⊢
        omega
    · simp only [buildSimilar, if_neg hg]
      exact ih seen cnt h

theorem authorScan_mem_spec (a : String) (n : Int) :
    ∀ (l : List (String × Metadata)) (acc : List AuthorItem) (e : AuthorItem),
      e ∈ authorScan a n l acc →
      e ∈ acc ∨
        ((∀ x ∈ acc, x.item_key ≠ e.item_key) ∧ e.item_key ≠ "" ∧
          ∃ l₁ p l₂, l = l₁ ++ p :: l₂ ∧ e = mkAuthorItem p.2 ∧
            p.2.item_key = some e.item_key ∧ authorMatch a p.2 = true ∧
            ∀ q ∈ l₁, authorMatch a q.2 = true → q.2.item_key ≠ some e.item_key) := by
  intro l
  induction l with
  | nil =>
    intro acc e he
    simp only [authorScan] at he
    exact Or.inl he
  | cons hd rest ih =>
    obtain ⟨d, meta⟩ := hd
    intro acc e he
    by_cases hm : authorMatch a meta = true
    · by_cases hg : truthy meta.item_key = true ∧
          ∀ x ∈ acc, x.item_key ≠ meta.item_key.getD ""
      · have htr := hg.1
        have hnew := hg.2
        obtain ⟨hk, hk0⟩ := truthy_some htr
        by_cases hstop : n ≤ ((acc ++ [mkAuthorItem meta]).length : Int)
        · simp only [authorScan, if_pos hm, if_pos hg, if_pos hstop,
            List.mem_append, List.mem_singleton] at he
          rcases he with hacc | hone
          · exact Or.inl hacc
          · subst hone
            refine Or.inr ⟨?_, ?_, [], (d, meta), rest, rfl, rfl, ?_, hm, by simp⟩
            · simpa only [mkAuthorItem_key] using hnew
            · simpa only [mkAuthorItem_key] using hk0
            · simpa only [mkAuthorItem_key] using hk
        · simp only [authorScan, if_pos hm, if_pos hg, if_neg hstop] at he
          rcases ih (acc ++ [mkAuthorItem meta]) e he with hacc' |
            ⟨hfresh, hne, l₁, p, l₂, hsplit, hemk, hpk, hpm, hfirst⟩
          · rcases List.mem_append.mp hacc' with hacc | hone
            · exact Or.inl hacc
            · rw [List.mem_singleton] at hone
              subst hone
              refine Or.inr ⟨?_, ?_, [], (d, meta), rest, rfl, rfl, ?_, hm, by simp⟩
              · simpa only [mkAuthorItem_key] using hnew
              · simpa only [mkAuthorItem_key] using hk0
              · simpa only [mkAuthorItem_key] using hk
          · refine Or.inr ⟨?_, hne, (d, meta) :: l₁, p, l₂, by simp [hsplit],
              hemk, hpk, hpm, ?_⟩
            · intro x hx
              exact hfresh x (List.mem_append_left _ hx)
            · intro q hq hqm
              rcases List.mem_cons.mp hq with hqe | hq'
              · subst hqe
                have hx : (mkAuthorItem meta).item_key ≠ e.item_key :=
                  hfresh _ (List.mem_append_right _ (List.mem_singleton.mpr rfl))
                rw [mkAuthorItem_key] at hx
                rw [hk]
                simp only [ne_eq, Option.some.injEq]
                exact fun hcontra => hx hcontra
              · exact hfirst q hq' hqm
      · by_cases hstop : n ≤ ((acc : List AuthorItem).length : Int)
        · simp only [authorScan, if_pos hm, if_neg hg, if_pos hstop] at he
          exact Or.inl he
        · simp only [authorScan, if_pos hm, if_neg hg, if_neg hstop] at he
          rcases ih acc e he with hacc |
            ⟨hfresh, hne, l₁, p, l₂, hsplit, hemk, hpk, hpm, hfirst⟩
          · exact Or.inl hacc
          · refine Or.inr ⟨hfresh, hne, (d, meta) :: l₁, p, l₂, by simp [hsplit],
              hemk, hpk, hpm, ?_⟩
            intro q hq hqm
            rcases List.mem_cons.mp hq with hqe | hq'
            · subst hqe
              intro hcontra
              apply hg
              constructor
              · rw [hcontra]; exact truthy_some_of_ne hne
              · intro x hx
                rw [hcontra]
                simpa using hfresh x hx
            · exact hfirst q hq' hqm
    · simp only [authorScan, if_neg hm] at he
      rcases ih acc e he with hacc |
        ⟨hfresh, hne, l₁, p, l₂, hsplit, hemk, hpk, hpm, hfirst⟩
      · exact Or.inl hacc
      · refine Or.inr ⟨hfresh, hne, (d, meta) :: l₁, p, l₂, by simp [hsplit],
          hemk, hpk, hpm, ?_⟩
        intro q hq hqm
        rcases List.mem_cons.mp hq with hqe | hq'
        · subst hqe
          exact absurd hqm hm
        · exact hfirst q hq' hqm

theorem authorScan_nodup (a : String) (n : Int) :
    ∀ (l : List (String × Metadata)) (acc : List AuthorItem),
      (acc.map AuthorItem.item_key).Nodup →
      ((authorScan a n l acc).map AuthorItem.item_key).Nodup := by
  intro l
  induction l with
  | nil => intro acc h; simpa [authorScan] using h
  | cons hd rest ih =>
    obtain ⟨d, meta⟩ := hd
    intro acc hacc
    by_cases hm : authorMatch a meta = true
    · by_cases hg : truthy meta.item_key = true ∧
          ∀ x ∈ acc, x.item_key ≠ meta.item_key.getD ""
      · have hacc' : ((acc ++ [mkAuthorItem meta]).map AuthorItem.item_key).Nodup := by
          simp only [List.map_append, List.map_cons, List.map_nil]
          rw [List.nodup_append]
          refine ⟨hacc, List.nodup_singleton _, ?_⟩
          intro x hx1 hx2
          simp only [mkAuthorItem_key, List.mem_singleton] at hx2
          obtain ⟨y, hy, hykey⟩ := List.mem_map.mp hx1
          subst hx2
          exact hg.2 y hy hykey
        by_cases hstop : n ≤ ((acc ++ [mkAuthorItem meta]).length : Int)
        · simp only [authorScan, if_pos hm, if_pos hg, if_pos hstop]
          exact hacc'
        · simp only [authorScan, if_pos hm, if_pos hg, if_neg hstop]
          exact ih _ hacc'
      · by_cases hstop : n ≤ ((acc : List AuthorItem).length : Int)
        · simp only [authorScan, if_pos hm, if_neg hg, if_pos hstop]
          exact hacc
        · simp only [authorScan, if_pos hm, if_neg hg, if_neg hstop]
          exact ih _ hacc
    · simp only [authorScan, if_neg hm]
      exact ih _ hacc

theorem authorScan_keys_sublist (a : String) (n : Int) :
    ∀ (l : List (String × Metadata)) (acc : List AuthorItem),
      List.Sublist ((authorScan a n l acc).map AuthorItem.item_key)
        (acc.map AuthorItem.item_key ++ l.map fun p => p.2.item_key.getD "") := by
  intro l
  induction l with
  | nil => intro acc; simp [authorScan]
  | cons hd rest ih =>
    obtain ⟨d, meta⟩ := hd
    intro acc
    by_cases hm : authorMatch a meta = true
    · by_cases hg : truthy meta.item_key = true ∧
          ∀ x ∈ acc, x.item_key ≠ meta.item_key.getD ""
      · by_cases hstop : n ≤ ((acc ++ [mkAuthorItem meta]).length : Int)
        · simp only [authorScan, if_pos hm, if_pos hg, if_pos hstop,
            List.map_append, List.map_cons, List.map_nil, mkAuthorItem_key]
          exact List.Sublist.append_left
            (List.Sublist.cons₂ _ (List.nil_sublist _)) _
        · simp only [authorScan, if_pos hm, if_pos hg, if_neg hstop]
          have h := ih (acc ++ [mkAuthorItem meta])
          simpa [List.map_append, mkAuthorItem_key, List.append_assoc] using h
      · by_cases hstop : n ≤ ((acc : List AuthorItem).length : Int)
        · simp only [authorScan, if_pos hm, if_neg hg, if_pos hstop,
            List.map_cons]
          exact List.sublist_append_left _ _
        · simp only [authorScan, if_pos hm, if_neg hg, if_neg hstop,
            List.map_cons]
          exact (ih acc).trans
            (List.Sublist.append_left (List.sublist_cons_self _ _) _)
    · simp only [authorScan, if_neg hm, List.map_cons]
      exact (ih acc).trans
        (List.Sublist.append_left (List.sublist_cons_self _ _) _)

theorem get_similar_items_payload_inv (key : String) (n : Int)
    (cg : String → Except String (List String))
    (cq : String → Int → Except String QueryReply)
    (src : String) (items : List SimilarItem)
    (h : get_similar_items key n cg cq = .ok (.payload src items)) :
    src = key ∧ ∃ q reply, cq q (n + 5) = .ok reply ∧
      items = buildSimilar key n (reply.metadatas.zip reply.distances) [] 0 := by
  cases hcg : cg key with
  | error e => simp [get_similar_items, hcg] at h
  | ok docs =>
    cases docs with
    | nil => simp [get_similar_items, hcg] at h
    | cons q0 drest =>
      cases hcq : cq q0 (n + 5) with
      | error e => simp [get_similar_items, hcg, hcq] at h
      | ok reply =>
        simp only [get_similar_items, hcg, hcq, Except.ok.injEq,
          SimilarReturn.payload.injEq] at h
        exact ⟨h.1.symm, q0, reply, hcq, h.2.symm⟩

theorem search_ok (q : String) (n : Int) (ft : Option String)
    (hits : List SearchResult) :
    search q n ft (fun _ _ => .ok hits) =
      { query := some q
        total_results :=
          ((hits.filter fun r => keepResult ft r.metadata).map formatResult).length
        results := (hits.filter fun r => keepResult ft r.metadata).map formatResult
        error := none } := rfl

theorem search_results_inv (q : String) (n : Int) (ft : Option String)
    (hits : List SearchResult) (r : FormattedResult)
    (h : r ∈ (search q n ft (fun _ _ => .ok hits)).results) :
    ∃ x, x ∈ hits ∧ r = formatResult x := by
  rw [search_ok] at h
  obtain ⟨x, hx, hfx⟩ := List.mem_map.mp h
  exact ⟨x, (List.mem_filter.mp hx).1, hfx.symm⟩

theorem search_by_author_payload_inv (a : String) (n : Int)
    (g : Except String (List String × List Metadata)) (p : AuthorPayload)
    (h : search_by_author a n g = .ok p) :
    ∃ docs metas, g = .ok (docs, metas) ∧
      p.items = authorScan a n (docs.zip metas) [] := by
  cases hg : g with
  | error e => simp [search_by_author, hg] at h
  | ok dm =>
    obtain ⟨docs, metas⟩ := dm
    simp only [search_by_author, hg, Except.ok.injEq] at h
    exact ⟨docs, metas, rfl, by rw [← h]⟩

/-! Claim theorems. -/

/-- Claim C1: an index error during `search` is caught and converted into the
`{error, results: [], total_results: 0}` payload (search never raises), while
`get_similar_items` (in both of its index calls), `search_by_author`,
`get_collection_info` (in both of its index calls) and `get_item` propagate
underlying index errors as exceptions. -/
theorem C1_search_degrades_others_propagate :
    (∀ q n ft ts e, ts q (searchEffective n) = Except.error e →
      search q n ft ts =
        { query := none, total_results := 0, results := [], error := some e }) ∧
    (∀ key n cg cq e, cg key = Except.error e →
      get_similar_items key n cg cq = .error e) ∧
    (∀ key n cg cq d ds e, cg key = Except.ok (d :: ds) →
      cq d (n + 5) = Except.error e → get_similar_items key n cg cq = .error e) ∧
    (∀ a n e, search_by_author a n (.error e) = .error e) ∧
    (∀ cn em dim e s, get_collection_info cn em dim (.error e) s = .error e) ∧
    (∀ cn em dim t e, get_collection_info cn em dim (.ok t) (.error e) = .error e) ∧
    (∀ k cg e, cg k = Except.error e → get_item k cg = .error e) := by
  refine ⟨?_, ?_, ?_, ?_, ?_, ?_, ?_⟩
  · intro q n ft ts e h
    simp only [search, h]
  · intro key n cg cq e h
    simp only [get_similar_items, h]
  · intro key n cg cq d ds e h1 h2
    simp only [get_similar_items, h1, h2]
  · intro a n e; rfl
  · intro cn em dim e s; rfl
  · intro cn em dim t e; rfl
  · intro k cg e h
    simp only [get_item, h]

/-- Witness for C1 at concrete index stubs. -/
theorem C1_witness :
    search "q" 3 none (fun _ _ => .error "down") =
      { query := none, total_results := 0, results := [], error := some "down" } ∧
    get_similar_items "K" 5 (fun _ => .error "down") oneHitQuery = .error "down" ∧
    get_similar_items "K" 5 oneChunkGet (fun _ _ => .error "down") = .error "down" ∧
    get_item "K" (fun _ => .error "down") = .error "down" :=
  ⟨C1_search_degrades_others_propagate.1 "q" 3 none _ "down" rfl,
   C1_search_degrades_others_propagate.2.1 "K" 5 _ oneHitQuery "down" rfl,
   C1_search_degrades_others_propagate.2.2.1 "K" 5 oneChunkGet _ "text" [] "down" rfl rfl,
   C1_search_degrades_others_propagate.2.2.2.2.2.2 "K" _ "down" rfl⟩

set_option maxRecDepth 4000 in
/-- Claim C2 (what the code does): `search` does NOT truncate excerpts —
every excerpt is the chunk content verbatim, and a 600-character content
yields a 600-character excerpt (the claim and the repo's own integration
test demand at most 503). -/
theorem C2_excerpt_not_truncated :
    (∀ q n ft hits,
      (search q n ft (fun _ _ => .ok hits)).results.map FormattedResult.excerpt
        = (hits.filter fun r => keepResult ft r.metadata).map SearchResult.content) ∧
    (search "q" 5 none (fun _ _ => .ok [longHit])).results.map
        FormattedResult.excerpt = [longContent] ∧
    longContent.length = 600 := by
  refine ⟨?_, rfl, rfl⟩
  intro q n ft hits
  rw [search_ok]
  simp only [List.map_map]
  rfl

/-- Claim C3 (amended): `search` performs no per-document deduplication — it
emits exactly one Citation Record per chunk-level hit that passes the type
filter, in hit order. -/
theorem C3_no_dedup_one_record_per_hit :
    ∀ q n ft hits,
      (search q n ft (fun _ _ => .ok hits)).results
        = (hits.filter fun r => keepResult ft r.metadata).map formatResult ∧
      (search q n ft (fun _ _ => .ok hits)).total_results
        = (hits.filter fun r => keepResult ft r.metadata).length := by
  intro q n ft hits
  refine ⟨rfl, ?_⟩
  rw [search_ok]
  simp [List.length_map]

/-- Counterexample to C3 as stated: three chunk hits sharing document key
`"D1"` produce three Citation Records, not one. -/
theorem C3_counterexample :
    (search "Title X" 10 none
        (fun _ _ => .ok [smithHit "a", smithHit "b", smithHit "c"])).total_results
      = 3 ∧
    (search "Title X" 10 none
        (fun _ _ => .ok [smithHit "a", smithHit "b", smithHit "c"])).results.map
        FormattedResult.zotero_key = [some "D1", some "D1", some "D1"] ∧
    (3 : Nat) ≠ 1 := ⟨rfl, rfl, by decide⟩

/-- Claim C4 (amended): the effective count is `min n_results 50` — values
above 50 are silently reduced to exactly 50 and the call is never rejected,
but there is no lower clamp: values below 50 (including negative ones) pass
through unchanged.  `search` consults the tool only at the effective count. -/
theorem C4_upper_clamp_only :
    (∀ q n ft f g, f q (searchEffective n) = g q (searchEffective n) →
      search q n ft f = search q n ft g) ∧
    (∀ n : Int, 50 < n → searchEffective n = 50) ∧
    (∀ n : Int, n ≤ 50 → searchEffective n = n) := by
  refine ⟨?_, ?_, ?_⟩
  · intro q n ft f g h
    simp only [search, h]
  · intro n h
    simp only [searchEffective]
    omega
  · intro n h
    simp only [searchEffective]
    omega

/-- Counterexample to C4 as stated: with `n_results = -5` the effective count
is −5 (not 0) — the spy index errors on any nonzero count, and `search`
consults it at −5. -/
theorem C4_counterexample :
    searchEffective (-5) = -5 ∧ ((-5 : Int) ≠ 0) ∧
    search "q" (-5) none spyTool =
      { query := none, total_results := 0, results := [],
        error := some "nonzero count" } ∧
    spyTool "q" 0 = .ok [] := ⟨rfl, by decide, rfl, rfl⟩

/-- Witness for C4 at concrete counts. -/
theorem C4_witness :
    searchEffective 60 = 50 ∧ searchEffective 3 = 3 ∧
    search "q" 7 none spyTool = search "q" 7 none spyTool :=
  ⟨C4_upper_clamp_only.2.1 60 (by decide), C4_upper_clamp_only.2.2 3 (by decide),
   C4_upper_clamp_only.1 "q" 7 none spyTool spyTool rfl⟩

/-- Claim C5 (amended): `get_similar_items` requests exactly `n_results + 5`
candidates (it consults the query primitive only at that count); its
`similar_items` never contain the source key; and for `n_results ≥ 1` the
list has at most `n_results` entries — for `n_results ≤ 0` a single entry can
still be returned, so the length bound fails there. -/
theorem C5_similar_items_props :
    (∀ key n cg f g, (∀ q, f q (n + 5) = g q (n + 5)) →
      get_similar_items key n cg f = get_similar_items key n cg g) ∧
    (∀ key n cg cq src items,
      get_similar_items key n cg cq = .ok (.payload src items) →
      ∀ e ∈ items, e.item_key ≠ key) ∧
    (∀ key n cg cq src items, 1 ≤ n →
      get_similar_items key n cg cq = .ok (.payload src items) →
      (items.length : Int) ≤ n) := by
  refine ⟨?_, ?_, ?_⟩
  · intro key n cg f g h
    cases hcg : cg key with
    | error e => simp only [get_similar_items, hcg]
    | ok docs =>
      cases docs with
      | nil => simp only [get_similar_items, hcg]
      | cons q0 tail => simp only [get_similar_items, hcg, h q0]
  · intro key n cg cq src items hEq e he
    obtain ⟨hsrc, q0, reply, hcq, hitems⟩ :=
      get_similar_items_payload_inv key n cg cq src items hEq
    subst hitems
    exact (buildSimilar_mem_spec key n _ _ _ e he).2.2.1
  · intro key n cg cq src items hn hEq
    obtain ⟨hsrc, q0, reply, hcq, hitems⟩ :=
      get_similar_items_payload_inv key n cg cq src items hEq
    subst hitems
    have h := buildSimilar_length_le key n
      (reply.metadatas.zip reply.distances) [] 0 (by omega)
    push_cast at h
    omega

/-- Counterexample to C5 as stated: with `n_results = 0` and one foreign hit
available, `similar_items` has one entry, exceeding `n_results`. -/
theorem C5_counterexample :
    get_similar_items "K" 0 oneChunkGet oneHitQuery
      = .ok (.payload "K" [mkSimilarItem otherMeta 0]) ∧
    ¬((1 : Nat) ≤ 0) := ⟨rfl, by decide⟩

/-- Witness for C5 at a concrete index state. -/
theorem C5_witness :
    get_similar_items "K" 2 oneChunkGet oneHitQuery
      = get_similar_items "K" 2 oneChunkGet oneHitQuery ∧
    (mkSimilarItem otherMeta 0).item_key ≠ "K" ∧
    (([mkSimilarItem otherMeta 0] : List SimilarItem).length : Int) ≤ 2 :=
  ⟨C5_similar_items_props.1 "K" 2 oneChunkGet oneHitQuery oneHitQuery
      (fun _ => rfl),
   C5_similar_items_props.2.1 "K" 2 oneChunkGet oneHitQuery "K"
      [mkSimilarItem otherMeta 0] rfl _ (List.mem_singleton.mpr rfl),
   C5_similar_items_props.2.2 "K" 2 oneChunkGet oneHitQuery "K"
      [mkSimilarItem otherMeta 0] (by decide) rfl⟩

/-- Claim C6: the deduplication performed inside `get_similar_items` and
`search_by_author` yields at most one entry per distinct document key (the
output key list is duplicate-free), keeps the first (best-ranked) occurrence
of each key (every output entry is built from the earliest admissible hit
carrying its key), and preserves the input's relative order among those first
occurrences (the output key sequence is a sublist of the input key
sequence). -/
theorem C6_dedup_first_seen_order :
    (∀ src n l, ((buildSimilar src n l [] 0).map SimilarItem.item_key).Nodup) ∧
    (∀ src n l,
      List.Sublist ((buildSimilar src n l [] 0).map SimilarItem.item_key)
        (l.map fun p => p.1.item_key.getD "")) ∧
    (∀ src n l e, e ∈ buildSimilar src n l [] 0 →
      ∃ l₁ p l₂, l = l₁ ++ p :: l₂ ∧ e = mkSimilarItem p.1 p.2 ∧
        p.1.item_key = some e.item_key ∧
        ∀ q ∈ l₁, q.1.item_key ≠ some e.item_key) ∧
    (∀ a n l, ((authorScan a n l []).map AuthorItem.item_key).Nodup) ∧
    (∀ a n l,
      List.Sublist ((authorScan a n l []).map AuthorItem.item_key)
        (l.map fun p => p.2.item_key.getD "")) ∧
    (∀ a n l e, e ∈ authorScan a n l [] →
      ∃ l₁ p l₂, l = l₁ ++ p :: l₂ ∧ e = mkAuthorItem p.2 ∧
        p.2.item_key = some e.item_key ∧ authorMatch a p.2 = true ∧
        ∀ q ∈ l₁, authorMatch a q.2 = true → q.2.item_key ≠ some e.item_key) := by
  refine ⟨?_, ?_, ?_, ?_, ?_, ?_⟩
  · intro src n l
    exact buildSimilar_nodup src n l [] 0
  · intro src n l
    exact buildSimilar_keys_sublist src n l [] 0
  · intro src n l e he
    obtain ⟨_, _, _, l₁, p, l₂, hsplit, hemk, hpk, hfirst⟩ :=
      buildSimilar_mem_spec src n l [] 0 e he
    exact ⟨l₁, p, l₂, hsplit, hemk, hpk, hfirst⟩
  · intro a n l
    exact authorScan_nodup a n l [] (by simp)
  · intro a n l
    have h := authorScan_keys_sublist a n l []
    simpa using h
  · intro a n l e he
    rcases authorScan_mem_spec a n l [] e he with h |
      ⟨_, _, l₁, p, l₂, hsplit, hemk, hpk, hpm, hfirst⟩
    · simp at h
    · exact ⟨l₁, p, l₂, hsplit, hemk, hpk, hpm, hfirst⟩

/-- Witness for C6 on concrete hit lists with a duplicated key. -/
theorem C6_witness :
    (∃ l₁ p l₂, dupPairs = l₁ ++ p :: l₂ ∧
        mkSimilarItem metaB 0 = mkSimilarItem p.1 p.2 ∧
        p.1.item_key = some (mkSimilarItem metaB 0).item_key ∧
        ∀ q ∈ l₁, q.1.item_key ≠ some (mkSimilarItem metaB 0).item_key) ∧
    (∃ l₁ p l₂, authorTriple = l₁ ++ p :: l₂ ∧
        mkAuthorItem metaB = mkAuthorItem p.2 ∧
        p.2.item_key = some (mkAuthorItem metaB).item_key ∧
        authorMatch "smith" p.2 = true ∧
        ∀ q ∈ l₁, authorMatch "smith" q.2 = true →
          q.2.item_key ≠ some (mkAuthorItem metaB).item_key) := by
  constructor
  · refine C6_dedup_first_seen_order.2.2.1 "SRC" 5 dupPairs
      (mkSimilarItem metaB 0) ?_
    have h : buildSimilar "SRC" 5 dupPairs [] 0
        = [mkSimilarItem otherMeta 0, mkSimilarItem metaB 0] := rfl
    rw [h]
    exact List.mem_cons_of_mem _ (List.mem_singleton.mpr rfl)
  · refine C6_dedup_first_seen_order.2.2.2.2.2 "smith" 5 authorTriple
      (mkAuthorItem metaB) ?_
    have h : authorScan "smith" 5 authorTriple []
        = [mkAuthorItem otherMeta, mkAuthorItem metaB] := rfl
    rw [h]
    exact List.mem_cons_of_mem _ (List.mem_singleton.mpr rfl)

/-- Claim C7 (amended): in `get_similar_items` every reported similarity is
`round3 (1 − distance)` and is never null; in `search` the similarity is
`round3 score` when the raw score is present and nonzero, and is null when
the score is absent OR zero — Python truthiness makes an available zero score
report null, so nullness does not coincide exactly with unavailability. -/
theorem C7_similarity_semantics :
    (∀ key n cg cq src items,
      get_similar_items key n cg cq = .ok (.payload src items) →
      ∀ e ∈ items, ∃ m d, e = mkSimilarItem m d ∧
        e.similarity = round3 (1 - d)) ∧
    (∀ q n ft hits r, r ∈ (search q n ft (fun _ _ => .ok hits)).results →
      ∃ x ∈ hits, r = formatResult x ∧
        (r.similarity = none ↔ (x.score = none ∨ x.score = some 0)) ∧
        ∀ s, x.score = some s → s ≠ 0 → r.similarity = some (round3 s)) := by
  constructor
  · intro key n cg cq src items hEq e he
    obtain ⟨_, q0, reply, hcq, hitems⟩ :=
      get_similar_items_payload_inv key n cg cq src items hEq
    subst hitems
    obtain ⟨_, _, _, l₁, p, l₂, _, hemk, _, _⟩ :=
      buildSimilar_mem_spec key n _ _ _ e he
    exact ⟨p.1, p.2, hemk, by rw [hemk]; rfl⟩
  · intro q n ft hits r hr
    obtain ⟨x, hx, hrx⟩ := search_results_inv q n ft hits r hr
    subst hrx
    refine ⟨x, hx, rfl, ?_, ?_⟩
    · cases hsc : x.score with
      | none => simp [formatResult, hsc]
      | some s =>
        by_cases hs0 : s = 0
        · subst hs0; simp [formatResult, hsc]
        · simp [formatResult, hsc, hs0]
    · intro s hs hs0
      simp [formatResult, hs, hs0]

/-- Counterexample to C7 as stated: a hit whose raw score is available and
equal to 0 is reported with a null similarity. -/
theorem C7_counterexample :
    (search "q" 5 none (fun _ _ => .ok [zeroScoreHit])).results.map
        FormattedResult.similarity = [none] ∧
    zeroScoreHit.score = some 0 := ⟨by decide, rfl⟩

/-- Witness for C7 at concrete index states. -/
theorem C7_witness :
    (∃ m d, mkSimilarItem otherMeta 0 = mkSimilarItem m d ∧
      (mkSimilarItem otherMeta 0).similarity = round3 (1 - d)) ∧
    (∃ x ∈ [smithHit "c"], formatResult (smithHit "c") = formatResult x ∧
      ((formatResult (smithHit "c")).similarity = none ↔
        (x.score = none ∨ x.score = some 0)) ∧
      ∀ s, x.score = some s → s ≠ 0 →
        (formatResult (smithHit "c")).similarity = some (round3 s)) := by
  constructor
  · exact C7_similarity_semantics.1 "K" 2 oneChunkGet oneHitQuery "K"
      [mkSimilarItem otherMeta 0] rfl _ (List.mem_singleton.mpr rfl)
  · refine C7_similarity_semantics.2 "q" 5 none [smithHit "c"]
      (formatResult (smithHit "c")) ?_
    have h : (search "q" 5 none (fun _ _ => .ok [smithHit "c"])).results
        = [formatResult (smithHit "c")] := rfl
    rw [h]
    exact List.mem_singleton.mpr rfl

/-- Claim C8 (amended): `estimated_unique_items` is the number of distinct
(truthy) document keys in the sampled metadatas times the integer FLOOR of
`total_chunks / 100` — floor division, which agrees with the claimed exact
linear scaling precisely when 100 divides `total_chunks`. -/
theorem C8_estimate_floor_scaling :
    (∀ cn em dim total metas,
      get_collection_info cn em dim (.ok total) (.ok metas)
        = .ok { collection_name := cn, total_chunks := total,
                estimated_unique_items := uniqueItemCount metas * (total / 100),
                sample_item_types := itemTypesHistogram metas,
                embedding_model := em, dimensions := dim }) ∧
    (∀ cn em dim total metas info, 100 ∣ total →
      get_collection_info cn em dim (.ok total) (.ok metas) = .ok info →
      (info.estimated_unique_items : ℚ) = specEstimatedUniqueItems total metas) := by
  constructor
  · intro cn em dim total metas
    rfl
  · intro cn em dim total metas info hdvd hEq
    simp only [get_collection_info, Except.ok.injEq] at hEq
    rw [← hEq]
    show ((uniqueItemCount metas * (total / 100) : ℕ) : ℚ)
      = specEstimatedUniqueItems total metas
    simp only [specEstimatedUniqueItems]
    rw [Nat.cast_mul, Nat.cast_div hdvd (by norm_num)]
    norm_num

/-- Counterexample to C8 as stated: 150 total chunks with 2 distinct sampled
keys give a code estimate of 2, while exact linear scaling gives 3. -/
theorem C8_counterexample :
    get_collection_info "c" "m" 7 (.ok 150) (.ok twoKeySample)
      = .ok { collection_name := "c", total_chunks := 150,
              estimated_unique_items := 2, sample_item_types := [("unknown", 2)],
              embedding_model := "m", dimensions := 7 } ∧
    specEstimatedUniqueItems 150 twoKeySample = 3 ∧ ((2 : ℚ) ≠ 3) := by
  refine ⟨rfl, ?_, by norm_num⟩
  have h2 : uniqueItemCount twoKeySample = 2 := by decide
  simp only [specEstimatedUniqueItems, h2]
  norm_num

/-- Witness for C8 with 100 dividing the chunk count. -/
theorem C8_witness :
    ((({ collection_name := "c", total_chunks := 200,
         estimated_unique_items := 4, sample_item_types := [("unknown", 2)],
         embedding_model := "m", dimensions := 7 } : CollectionInfo)
      ).estimated_unique_items : ℚ)
      = specEstimatedUniqueItems 200 twoKeySample :=
  C8_estimate_floor_scaling.2 "c" "m" 7 200 twoKeySample _ ⟨2, rfl⟩ rfl

/-- Claim C9: for a key with no matching chunk, `get_item` and
`get_similar_items` return the structured `{error: ...}` payload without
raising; for a key that does have a chunk, `get_item` raises the
unimplemented-integration error. -/
theorem C9_notfound_vs_unimplemented :
    (∀ key cg, cg key = Except.ok [] →
      get_item key cg = .ok (.errorPayload ("Item " ++ key ++ " not found"))) ∧
    (∀ key n cg cq, cg key = Except.ok [] →
      get_similar_items key n cg cq
        = .ok (.errorPayload ("Item " ++ key ++ " not found"))) ∧
    (∀ key cg d ds, cg key = Except.ok (d :: ds) →
      get_item key cg = .error notImplementedMsg) := by
  refine ⟨?_, ?_, ?_⟩
  · intro key cg h
    simp only [get_item, h]
  · intro key n cg cq h
    simp only [get_similar_items, h]
  · intro key cg d ds h
    simp only [get_item, h]

/-- Witness for C9 at concrete index stubs. -/
theorem C9_witness :
    get_item "X" (fun _ => .ok [])
      = .ok (.errorPayload ("Item " ++ "X" ++ " not found")) ∧
    get_similar_items "X" 5 (fun _ => .ok []) oneHitQuery
      = .ok (.errorPayload ("Item " ++ "X" ++ " not found")) ∧
    get_item "K" oneChunkGet = .error notImplementedMsg :=
  ⟨C9_notfound_vs_unimplemented.1 "X" _ rfl,
   C9_notfound_vs_unimplemented.2.1 "X" 5 _ oneHitQuery rfl,
   C9_notfound_vs_unimplemented.2.2 "K" oneChunkGet "text" [] rfl⟩

/-- Claim C10 (amended): in every record returned by `search`,
`get_similar_items` and `search_by_author`, the `zotero_link` is non-null iff
the `zotero_key` is non-null AND non-empty (Python truthiness — a present but
empty key yields a null link), and when non-null it is
`"zotero://select/library/items/" ++ key`. -/
theorem C10_link_iff_truthy_key :
    (∀ q n ft hits r, r ∈ (search q n ft (fun _ _ => .ok hits)).results →
      linkSpec r.zotero_key r.zotero_link) ∧
    (∀ key n cg cq src items,
      get_similar_items key n cg cq = .ok (.payload src items) →
      ∀ e ∈ items, linkSpec e.zotero_key e.zotero_link) ∧
    (∀ a n g p, search_by_author a n g = .ok p →
      ∀ it ∈ p.items, linkSpec it.zotero_key it.zotero_link) := by
  refine ⟨?_, ?_, ?_⟩
  · intro q n ft hits r hr
    obtain ⟨x, _, hrx⟩ := search_results_inv q n ft hits r hr
    subst hrx
    exact linkSpec_mk x.metadata.document_id
  · intro key n cg cq src items hEq e he
    obtain ⟨_, q0, reply, _, hitems⟩ :=
      get_similar_items_payload_inv key n cg cq src items hEq
    subst hitems
    obtain ⟨_, _, _, l₁, p, l₂, _, hemk, _, _⟩ :=
      buildSimilar_mem_spec key n _ _ _ e he
    subst hemk
    exact linkSpec_mk p.1.document_id
  · intro a n g p hEq it hit
    obtain ⟨docs, metas, hg, hitems⟩ :=
      search_by_author_payload_inv a n g p hEq
    rw [hitems] at hit
    rcases authorScan_mem_spec a n _ [] it hit with h |
      ⟨_, _, l₁, pq, l₂, _, hemk, _, _, _⟩
    · simp at h
    · subst hemk
      exact linkSpec_mk pq.2.document_id

/-- Counterexample to C10 as stated: a present but empty `document_id` gives
a non-null `zotero_key` (`some ""`) with a null `zotero_link`. -/
theorem C10_counterexample :
    (search "q" 1 none (fun _ _ => .ok [emptyKeyHit])).results.map
        (fun r => (r.zotero_key, r.zotero_link)) = [(some "", none)] ∧
    (some "" : Option String) ≠ none := ⟨rfl, by decide⟩

/-- Witness for C10 on concrete records of all three operations. -/
theorem C10_witness :
    linkSpec (formatResult (smithHit "c")).zotero_key
      (formatResult (smithHit "c")).zotero_link ∧
    linkSpec (mkSimilarItem otherMeta 0).zotero_key
      (mkSimilarItem otherMeta 0).zotero_link ∧
    linkSpec (mkAuthorItem metaB).zotero_key (mkAuthorItem metaB).zotero_link := by
  refine ⟨?_, ?_, ?_⟩
  · refine C10_link_iff_truthy_key.1 "q" 5 none [smithHit "c"]
      (formatResult (smithHit "c")) ?_
    have h : (search "q" 5 none (fun _ _ => .ok [smithHit "c"])).results
        = [formatResult (smithHit "c")] := rfl
    rw [h]
    exact List.mem_singleton.mpr rfl
  · exact C10_link_iff_truthy_key.2.1 "K" 2 oneChunkGet oneHitQuery "K"
      [mkSimilarItem otherMeta 0] rfl _ (List.mem_singleton.mpr rfl)
  · refine C10_link_iff_truthy_key.2.2 "smith" 5
      (.ok (["d1", "d2", "d3"], [otherMeta, otherDup, metaB]))
      { author := "smith", total_results := 2,
        items := [mkAuthorItem otherMeta, mkAuthorItem metaB] } rfl
      (mkAuthorItem metaB) ?_
    exact List.mem_cons_of_mem _ (List.mem_singleton.mpr rfl)

end ZotMCP
